import Mathlib

/-!
Verification of the uigen tool-message classifier, the post-sign-in project
resolver, and the tool-call display indicator.

The definitions in the first part are shallow embeddings of the TypeScript
functions in `src/lib/utils/tool-message-parser.ts` and of the `ToolCallDisplay`
component. JavaScript strings are modelled by `String`, a possibly-`null`
argument record by `Option ToolArgs`, and `undefined` fields inside the record
by `Option` fields. Lucide icon components are modelled by a small inductive
type, one constructor per icon used.
-/

namespace UIGen

/-- Icons imported from lucide-react and used by the classifier. -/
inductive Icon where
  | filePlus
  | fileEdit
  | fileX
  | fileSymlink
  | eye
  | undo
deriving DecidableEq, Repr

/-- Output record of the classifier (`ToolMessage` in the source); `details`
is an optional field, present only on the rename branch. -/
structure ToolMessage where
  action : String
  fileName : String
  filePath : String
  icon : Icon
  colorClass : String
  bgColorClass : String
  borderColorClass : String
  details : Option String := none
deriving DecidableEq, Repr

/-- The argument record passed to a tool invocation. In the source `args` has
type `any`; the classifier only reads the keys `command`, `path` and
`new_path`, each of which may be absent (`undefined`). -/
structure ToolArgs where
  command : Option String := none
  path : Option String := none
  new_path : Option String := none
deriving DecidableEq, Repr

/-- JavaScript `String.prototype.split("/")` on the character list of a path:
cuts the list at every `'/'`, keeping empty pieces (so `"/a"` splits into
`["", "a"]`, and `""` splits into `[""]`). -/
def splitSlash : List Char → List (List Char)
  | [] => [[]]
  | c :: cs =>
    let rest := splitSlash cs
    if c = '/' then [] :: rest
    else
      match rest with
      | [] => [[c]]
      | s :: ss => (c :: s) :: ss

/-- Embedding of `extractFileName` from `tool-message-parser.ts`:
`if (!path || path === "/") return "/"` then `path.split("/").filter(Boolean)`
and the last element, with `"/"` when no segment remains. -/
def extractFileName (path : String) : String :=
  if path = "" ∨ path = "/" then "/"
  else
    let parts := (splitSlash path.data).filter (fun s => s ≠ [])
    match parts.getLast? with
    | some s => ⟨s⟩
    | none => "/"

/-- The spec's description of the extraction, written independently of the
code's early-return: split on the separator, discard empty segments, return
the last remaining segment, and the root marker `"/"` when none remains. -/
def extractFileNameSpec (path : String) : String :=
  match ((splitSlash path.data).filter (fun s => s ≠ [])).getLast? with
  | some s => ⟨s⟩
  | none => "/"

/-- Embedding of `parseStrReplaceEditor`: destructures `args || {}`, derives
`fileName`/`filePath` from `path || ""`, then dispatches on `command`. -/
def parseStrReplaceEditor (args : Option ToolArgs) : ToolMessage :=
  let command := args.bind ToolArgs.command
  let path := (args.bind ToolArgs.path).getD ""
  let fileName := extractFileName path
  let filePath := path
  if command = some "create" then
    { action := "Creating", fileName := fileName, filePath := filePath,
      icon := Icon.filePlus, colorClass := "text-green-600",
      bgColorClass := "bg-green-50", borderColorClass := "border-green-200" }
  else if command = some "str_replace" ∨ command = some "insert" then
    { action := "Editing", fileName := fileName, filePath := filePath,
      icon := Icon.fileEdit, colorClass := "text-amber-600",
      bgColorClass := "bg-amber-50", borderColorClass := "border-amber-200" }
  else if command = some "view" then
    { action := "Viewing", fileName := fileName, filePath := filePath,
      icon := Icon.eye, colorClass := "text-blue-600",
      bgColorClass := "bg-blue-50", borderColorClass := "border-blue-200" }
  else if command = some "undo_edit" then
    { action := "Undoing changes to", fileName := fileName, filePath := filePath,
      icon := Icon.undo, colorClass := "text-neutral-600",
      bgColorClass := "bg-neutral-50", borderColorClass := "border-neutral-200" }
  else
    { action := "Processing", fileName := fileName, filePath := filePath,
      icon := Icon.fileEdit, colorClass := "text-neutral-600",
      bgColorClass := "bg-neutral-50", borderColorClass := "border-neutral-200" }

/-- Embedding of `parseFileManager`: dispatches on `command`, with a `details`
string `"to <new file name>"` on the rename branch only. -/
def parseFileManager (args : Option ToolArgs) : ToolMessage :=
  let command := args.bind ToolArgs.command
  let path := (args.bind ToolArgs.path).getD ""
  let fileName := extractFileName path
  let filePath := path
  if command = some "delete" then
    { action := "Deleting", fileName := fileName, filePath := filePath,
      icon := Icon.fileX, colorClass := "text-red-600",
      bgColorClass := "bg-red-50", borderColorClass := "border-red-200" }
  else if command = some "rename" then
    let newFileName := extractFileName ((args.bind ToolArgs.new_path).getD "")
    { action := "Renaming", fileName := fileName, filePath := filePath,
      icon := Icon.fileSymlink, colorClass := "text-purple-600",
      bgColorClass := "bg-purple-50", borderColorClass := "border-purple-200",
      details := some ("to " ++ newFileName) }
  else
    { action := "Processing", fileName := fileName, filePath := filePath,
      icon := Icon.fileSymlink, colorClass := "text-neutral-600",
      bgColorClass := "bg-neutral-50", borderColorClass := "border-neutral-200" }

/-- Embedding of `parseToolInvocation`: dispatch on the tool name, with a
generic fallback whose `fileName` is the tool name itself. -/
def parseToolInvocation (toolName : String) (args : Option ToolArgs) : ToolMessage :=
  if toolName = "str_replace_editor" then parseStrReplaceEditor args
  else if toolName = "file_manager" then parseFileManager args
  else
    { action := "Running", fileName := toolName, filePath := "",
      icon := Icon.fileEdit, colorClass := "text-neutral-600",
      bgColorClass := "bg-neutral-50", borderColorClass := "border-neutral-200" }

/-- State of a tool invocation as fed to `ToolCallDisplay`:
`"partial-call" | "call" | "result"`. -/
inductive ToolState where
  | partialCall
  | call
  | result
deriving DecidableEq, Repr

/-- A JavaScript value carried in the optional `result` field. The component
only distinguishes strings (rendered as-is) from other values (rendered via
JSON serialization); non-string values are modelled by their serialization. -/
inductive JsValue where
  | str (s : String)
  | other (json : String)
deriving DecidableEq, Repr

/-- The `ToolInvocation` record consumed by `ToolCallDisplay`; `result` is an
optional field (`undefined` is modelled by `none`). -/
structure ToolInvocation where
  toolCallId : String
  toolName : String
  args : Option ToolArgs
  state : ToolState
  result : Option JsValue := none
deriving DecidableEq, Repr

/-- Embedding of the component's completion test:
`const isCompleted = state === "result" && result !== undefined`. -/
def isCompleted (inv : ToolInvocation) : Bool :=
  inv.state == ToolState.result && inv.result.isSome

/-- The two state-indicator icons the component can render. -/
inductive StatusIcon where
  | checkCircle2
  | loader2
deriving DecidableEq, Repr

/-- Embedding of the component's indicator choice: the checkmark when
`isCompleted`, otherwise the spinner. -/
def statusIndicator (inv : ToolInvocation) : StatusIcon :=
  if isCompleted inv then StatusIcon.checkCircle2 else StatusIcon.loader2

/-- Modelled from the spec: a chat message record inside anonymous work (the
hook `use-auth.ts` is not part of the sources; only its tests are). Only the
sequence structure matters to the resolver. -/
structure ChatMessage where
  role : String
  content : String
deriving DecidableEq, Repr

/-- Modelled from the spec: `AnonymousWork` is `{ messages : ordered sequence
of chat message records, fileSystemData : mapping from path to file record }`;
the mapping is modelled as an association list from path to a serialized file
record. -/
structure AnonWork where
  messages : List ChatMessage
  fileSystemData : List (String × String)
deriving DecidableEq, Repr

/-- Modelled from the spec: an external `Project` entity with at least
`{ id, updatedAt }`; the timestamp is modelled as a natural number, ordering
by `updatedAt` determining "most recent". -/
structure Project where
  id : String
  updatedAt : Nat
deriving DecidableEq, Repr

/-- Modelled from the spec: the argument of the project-creation collaborator,
`spec = { name, messages, data }`. -/
structure ProjectSpec where
  name : String
  messages : List ChatMessage
  data : List (String × String)
deriving DecidableEq, Repr

/-- Modelled from the spec: the authentication collaborator's outcome
`{ success, error? }`. -/
structure AuthResult where
  success : Bool
  error : Option String := none
deriving DecidableEq, Repr

/-- Errors thrown by collaborators, modelled by their message. -/
abbrev Err := String

/-- Modelled from the spec: the environment of one sign-in/sign-up attempt.
Each collaborator call is modelled by its outcome (`Except.error` for a
thrown error): the authentication call, the anonymous-work read, the
project-listing call and the project-creation call; `timeString` is the
locale-formatted current time and `randomNat` the random draw used for the
default project name. -/
structure AuthEnv where
  authResult : Except Err AuthResult
  anonWork : Except Err (Option AnonWork)
  projects : Except Err (List Project)
  createResult : Except Err Project
  timeString : String
  randomNat : Nat

/-- Observable events of one sign-in/sign-up attempt, in order: loading-flag
writes, the authentication call, the three collaborator calls, the
anonymous-work clear, navigation, a rethrown error, and the returned auth
result. -/
inductive Event where
  | setLoading (b : Bool)
  | callAuth
  | getAnonWork
  | listProjects
  | callCreate (s : ProjectSpec)
  | clearAnonWork
  | navigate (p : String)
  | throwErr (e : Err)
  | authReturn (r : AuthResult)
deriving DecidableEq, Repr

/-- Keeps the later-updated of two projects (the earlier one on ties). -/
def pickNewer (b q : Project) : Project :=
  if b.updatedAt < q.updatedAt then q else b

/-- Modelled from the spec: selection of the most recently updated project
from an unordered listing; `none` exactly when the listing is empty. -/
def mostRecent : List Project → Option Project
  | [] => none
  | p :: ps => some (ps.foldl pickNewer p)

/-- Modelled from the spec: the project-listing phase of the resolver. Query
existing projects; if at least one exists navigate to the most recently
updated one (no creation call); if none exist create a default project named
`"New Design #<random integer in [0, 100000)>"` with empty messages and data,
then navigate to it. A failure of either call propagates. The returned pair
is the emitted event list and the propagated error, if any. -/
def projectsPhase (env : AuthEnv) : List Event × Option Err :=
  match env.projects with
  | Except.error e => ([Event.getAnonWork, Event.listProjects], some e)
  | Except.ok ps =>
    match mostRecent ps with
    | some best =>
      ([Event.getAnonWork, Event.listProjects,
        Event.navigate ("/" ++ best.id)], none)
    | none =>
      let s : ProjectSpec :=
        { name := "New Design #" ++ toString (env.randomNat % 100000),
          messages := [], data := [] }
      match env.createResult with
      | Except.error e =>
        ([Event.getAnonWork, Event.listProjects, Event.callCreate s], some e)
      | Except.ok proj =>
        ([Event.getAnonWork, Event.listProjects, Event.callCreate s,
          Event.navigate ("/" ++ proj.id)], none)

/-- Modelled from the spec: the post-authentication resolver
(`handlePostSignIn`), invoked only after an attempt reports success. Read the
anonymous-work store; if work with a non-empty message sequence is present,
create a project named `"Design from <locale time>"` from it, clear the
store, and navigate to it; otherwise fall through to the project-listing
phase. An anonymous-work record with zero messages is treated as absent. -/
def handlePostSignIn (env : AuthEnv) : List Event × Option Err :=
  match env.anonWork with
  | Except.error e => ([Event.getAnonWork], some e)
  | Except.ok (some aw) =>
    if aw.messages.isEmpty then projectsPhase env
    else
      let s : ProjectSpec :=
        { name := "Design from " ++ env.timeString,
          messages := aw.messages, data := aw.fileSystemData }
      match env.createResult with
      | Except.error e => ([Event.getAnonWork, Event.callCreate s], some e)
      | Except.ok proj =>
        ([Event.getAnonWork, Event.callCreate s, Event.clearAnonWork,
          Event.navigate ("/" ++ proj.id)], none)
  | Except.ok none => projectsPhase env

/-- Modelled from the spec: the full event trace of one sign-in/sign-up
attempt. The in-flight flag is set before the attempt begins; the
authentication collaborator is called; on reported success the resolver runs
(on failure it does not run at all); the flag is cleared in a
guaranteed-cleanup path; finally either the pending error is rethrown to the
caller or the authentication result is returned. -/
def signInTrace (env : AuthEnv) : List Event :=
  Event.setLoading true :: Event.callAuth ::
    (match env.authResult with
     | Except.error e => [Event.setLoading false, Event.throwErr e]
     | Except.ok r =>
       if r.success then
         (handlePostSignIn env).1 ++ Event.setLoading false ::
           (match (handlePostSignIn env).2 with
            | some e => [Event.throwErr e]
            | none => [Event.authReturn r])
       else [Event.setLoading false, Event.authReturn r])

/-- One step of replaying the in-flight flag over a trace: a `setLoading`
write overwrites the flag, every other event leaves it unchanged. -/
def loadStep (b : Bool) (e : Event) : Bool :=
  match e with
  | Event.setLoading v => v
  | _ => b

/-- The value of the in-flight flag after a trace has settled (it starts
false). -/
def finalLoading (evs : List Event) : Bool :=
  evs.foldl loadStep false

/-- Environment of a sign-in attempt whose authentication call throws. -/
def envAuthThrows : AuthEnv :=
  { authResult := Except.error "Network error",
    anonWork := Except.ok none,
    projects := Except.ok [],
    createResult := Except.ok { id := "project-123", updatedAt := 0 },
    timeString := "10:30:00 AM",
    randomNat := 42 }

/-- Environment of a sign-in attempt whose authentication reports failure. -/
def envSignInFails : AuthEnv :=
  { authResult := Except.ok { success := false, error := some "Invalid credentials" },
    anonWork := Except.ok none,
    projects := Except.ok [{ id := "p1", updatedAt := 1 }],
    createResult := Except.ok { id := "p2", updatedAt := 2 },
    timeString := "9:00:00 AM",
    randomNat := 7 }

/-- Environment of a successful sign-in with no anonymous work and two
existing projects listed with the most recently updated one second. -/
def envExistingProjects : AuthEnv :=
  { authResult := Except.ok { success := true },
    anonWork := Except.ok none,
    projects := Except.ok [{ id := "project-2", updatedAt := 1 },
                           { id := "project-1", updatedAt := 2 }],
    createResult := Except.ok { id := "unused", updatedAt := 0 },
    timeString := "10:30:00 AM",
    randomNat := 0 }

/-- Environment of a successful sign-in with one existing project. -/
def envOneProject : AuthEnv :=
  { authResult := Except.ok { success := true },
    anonWork := Except.ok none,
    projects := Except.ok [{ id := "existing-project", updatedAt := 3 }],
    createResult := Except.ok { id := "project-123", updatedAt := 9 },
    timeString := "11:00:00 AM",
    randomNat := 5 }

/-- C1: for every input string, `extractFileName` returns the last
'/'-delimited non-empty segment, and the root marker `"/"` for the empty
string, for `"/"`, and for any path with no non-empty segments; being a total
Lean function, it never fails. -/
theorem extractFileName_eq_spec (p : String) :
    extractFileName p = extractFileNameSpec p := by
  by_cases h : p = "" ∨ p = "/"
  · rcases h with rfl | rfl <;> decide
  · push_neg at h
    simp [extractFileName, extractFileNameSpec, h.1, h.2]

/-- C2 counterexample: the claim asserts that for every tool name the
descriptor's `fileName` falls back to the root marker on null args, but for a
tool name other than the two recognized ones the fallback branch sets
`fileName` to the tool name itself, not `"/"`. -/
theorem parseToolInvocation_unknown_fileName_not_root :
    (parseToolInvocation "unknown_tool" none).fileName ≠ "/" := by
  decide

/-- C2 (amended): for every tool name, `parseToolInvocation` with null args or
an empty args record is total (it always returns a descriptor); for the two
recognized tools the `fileName` falls back to the root marker `"/"`, and for
every other tool name it is the tool name itself. -/
theorem parseToolInvocation_null_or_empty_args (toolName : String)
    (args : Option ToolArgs) (h : args = none ∨ args = some {}) :
    (parseToolInvocation toolName args).fileName =
      (if toolName = "str_replace_editor" ∨ toolName = "file_manager"
       then "/" else toolName) := by
  rcases h with rfl | rfl <;>
    by_cases h1 : toolName = "str_replace_editor" <;>
    by_cases h2 : toolName = "file_manager" <;>
    simp [parseToolInvocation, parseStrReplaceEditor, parseFileManager,
      extractFileName, h1, h2]

/-- Witness for the amended C2 at a concrete input: the file-editor tool with
null args yields the root marker as `fileName`. -/
theorem parseToolInvocation_null_args_witness :
    (parseToolInvocation "str_replace_editor" none).fileName = "/" := by
  have h := parseToolInvocation_null_or_empty_args "str_replace_editor" none
    (Or.inl rfl)
  simpa using h

/-- C7: for every args record with the same `path` (and `new_path`), the
file-editor tool classifies the commands `str_replace` and `insert`
identically: same action "Editing", same icon, and same color triad (the whole
descriptors are equal). -/
theorem parseStrReplaceEditor_str_replace_eq_insert (p np : Option String) :
    parseStrReplaceEditor
        (some { command := some "str_replace", path := p, new_path := np }) =
      parseStrReplaceEditor
        (some { command := some "insert", path := p, new_path := np }) := by
  rfl

/-- C8: for every tool name other than `str_replace_editor` and
`file_manager`, and for any args, the classifier returns the generic fallback
descriptor: action "Running", `fileName` equal to the tool name, `filePath`
empty. -/
theorem parseToolInvocation_unknown_fallback (toolName : String)
    (args : Option ToolArgs) (h1 : toolName ≠ "str_replace_editor")
    (h2 : toolName ≠ "file_manager") :
    (parseToolInvocation toolName args).action = "Running" ∧
    (parseToolInvocation toolName args).fileName = toolName ∧
    (parseToolInvocation toolName args).filePath = "" := by
  simp [parseToolInvocation, h1, h2]

/-- Witness for C8 at the concrete input `("unknown_tool", {})`. -/
theorem parseToolInvocation_unknown_fallback_witness :
    (parseToolInvocation "unknown_tool" (some {})).action = "Running" ∧
    (parseToolInvocation "unknown_tool" (some {})).fileName = "unknown_tool" ∧
    (parseToolInvocation "unknown_tool" (some {})).filePath = "" :=
  parseToolInvocation_unknown_fallback "unknown_tool" (some {})
    (by decide) (by decide)

/-- C9: the `details` field is populated exactly on the file-manager rename
branch, where it equals `"to "` followed by the file name derived from
`new_path`; on that branch `fileName` is derived from `path` by the filename
extraction; every other branch of the classifier leaves `details` absent. -/
theorem parseToolInvocation_rename_details (toolName : String)
    (args : Option ToolArgs) :
    ((parseToolInvocation toolName args).details =
      if toolName = "file_manager" ∧ args.bind ToolArgs.command = some "rename"
      then some ("to " ++ extractFileName ((args.bind ToolArgs.new_path).getD ""))
      else none) ∧
    (toolName = "file_manager" ∧ args.bind ToolArgs.command = some "rename" →
      (parseToolInvocation toolName args).fileName =
        extractFileName ((args.bind ToolArgs.path).getD "")) := by
  by_cases h1 : toolName = "str_replace_editor" <;>
    by_cases h2 : toolName = "file_manager"
  · subst h1; simp at h2
  · subst h1
    constructor
    · by_cases hc : args.bind ToolArgs.command = some "create" <;>
        by_cases hs : args.bind ToolArgs.command = some "str_replace" ∨
          args.bind ToolArgs.command = some "insert" <;>
        by_cases hv : args.bind ToolArgs.command = some "view" <;>
        by_cases hu : args.bind ToolArgs.command = some "undo_edit" <;>
        simp [parseToolInvocation, parseStrReplaceEditor, hc, hs, hv, hu]
    · intro hcontra
      exact absurd hcontra.1 (by decide)
  · subst h2
    constructor
    · by_cases hd : args.bind ToolArgs.command = some "delete" <;>
        by_cases hr : args.bind ToolArgs.command = some "rename" <;>
        simp [parseToolInvocation, parseFileManager, hd, hr]
    · intro hre
      have hr := hre.2
      have hd : args.bind ToolArgs.command ≠ some "delete" := by
        rw [hr]; decide
      simp [parseToolInvocation, parseFileManager, hd, hr]
  · constructor
    · simp [parseToolInvocation, h1, h2]
    · intro hcontra
      exact absurd hcontra.1 h2

/-- C10: the completed checkmark is shown if and only if the state is
`result` and the `result` field is defined; in particular a state-`result`
invocation with an undefined result shows the in-progress spinner. -/
theorem statusIndicator_checkmark_iff (inv : ToolInvocation) :
    (statusIndicator inv = StatusIcon.checkCircle2 ↔
      inv.state = ToolState.result ∧ inv.result.isSome = true) ∧
    (inv.state = ToolState.result → inv.result = none →
      statusIndicator inv = StatusIcon.loader2) := by
  obtain ⟨tid, tn, a, st, res⟩ := inv
  cases st <;> cases res <;>
    simp [statusIndicator, isCompleted]

/-- Witness for C10 at a concrete input: a state-`result` invocation whose
`result` is undefined renders the spinner. -/
theorem statusIndicator_checkmark_iff_witness :
    statusIndicator { toolCallId := "call_143", toolName := "str_replace_editor",
                      args := some { command := some "create",
                                     path := some "/test.tsx" },
                      state := ToolState.result, result := none } =
      StatusIcon.loader2 :=
  (statusIndicator_checkmark_iff _).2 rfl rfl

/-- Witness for C9 at the spec's concrete input: renaming `/a.tsx` to
`/b.tsx` yields `fileName` "a.tsx" and `details` "to b.tsx". -/
theorem parseToolInvocation_rename_details_witness :
    (parseToolInvocation "file_manager"
        (some { command := some "rename", path := some "/a.tsx",
                new_path := some "/b.tsx" })).fileName = "a.tsx" ∧
    (parseToolInvocation "file_manager"
        (some { command := some "rename", path := some "/a.tsx",
                new_path := some "/b.tsx" })).details = some "to b.tsx" := by
  have h := parseToolInvocation_rename_details "file_manager"
    (some { command := some "rename", path := some "/a.tsx",
            new_path := some "/b.tsx" })
  refine ⟨?_, ?_⟩
  · have hf := h.2 ⟨rfl, rfl⟩
    rw [hf]; decide
  · have hd := h.1
    rw [hd]; decide

theorem le_pickNewer_left (a q : Project) :
    a.updatedAt ≤ (pickNewer a q).updatedAt := by
  unfold pickNewer
  split <;> omega

theorem le_pickNewer_right (a q : Project) :
    q.updatedAt ≤ (pickNewer a q).updatedAt := by
  unfold pickNewer
  split <;> omega

theorem foldl_pickNewer_mem (l : List Project) (a : Project) :
    l.foldl pickNewer a = a ∨ l.foldl pickNewer a ∈ l := by
  induction l generalizing a with
  | nil => exact Or.inl rfl
  | cons q l ih =>
    rw [List.foldl_cons]
    rcases ih (pickNewer a q) with h | h
    · rw [h]
      by_cases hlt : a.updatedAt < q.updatedAt
      · simp [pickNewer, hlt]
      · simp [pickNewer, hlt]
    · exact Or.inr (List.mem_cons_of_mem _ h)

theorem foldl_pickNewer_ge (l : List Project) (a : Project) :
    a.updatedAt ≤ (l.foldl pickNewer a).updatedAt ∧
      ∀ q ∈ l, q.updatedAt ≤ (l.foldl pickNewer a).updatedAt := by
  induction l generalizing a with
  | nil => exact ⟨le_refl _, by simp⟩
  | cons q l ih =>
    rw [List.foldl_cons]
    obtain ⟨h1, h2⟩ := ih (pickNewer a q)
    refine ⟨le_trans (le_pickNewer_left a q) h1, ?_⟩
    intro p hp
    rcases List.mem_cons.mp hp with rfl | hp
    · exact le_trans (le_pickNewer_right a p) h1
    · exact h2 p hp

theorem mostRecent_spec (p : Project) (ps : List Project) :
    ∃ b, mostRecent (p :: ps) = some b ∧ b ∈ p :: ps ∧
      ∀ q ∈ p :: ps, q.updatedAt ≤ b.updatedAt := by
  refine ⟨ps.foldl pickNewer p, rfl, ?_, ?_⟩
  · rcases foldl_pickNewer_mem ps p with h | h
    · rw [h]; exact List.mem_cons_self _ _
    · exact List.mem_cons_of_mem _ h
  · intro q hq
    obtain ⟨h1, h2⟩ := foldl_pickNewer_ge ps p
    rcases List.mem_cons.mp hq with rfl | hq
    · exact h1
    · exact h2 q hq

theorem foldl_loadStep_no_set :
    ∀ (t : List Event) (b : Bool),
      (∀ v, Event.setLoading v ∉ t) → t.foldl loadStep b = b := by
  intro t
  induction t with
  | nil => intro b _; rfl
  | cons e t ih =>
    intro b h
    rw [List.foldl_cons]
    have ht : ∀ v, Event.setLoading v ∉ t :=
      fun v hv => h v (List.mem_cons_of_mem _ hv)
    rw [ih _ ht]
    cases e with
    | setLoading v => exact absurd (List.mem_cons_self _ _) (h v)
    | callAuth => rfl
    | getAnonWork => rfl
    | listProjects => rfl
    | callCreate s => rfl
    | clearAnonWork => rfl
    | navigate p => rfl
    | throwErr e2 => rfl
    | authReturn r => rfl

theorem finalLoading_concat (pre t : List Event)
    (h : ∀ v, Event.setLoading v ∉ t) :
    finalLoading (pre ++ Event.setLoading false :: t) = false := by
  unfold finalLoading
  rw [List.foldl_append, List.foldl_cons]
  exact foldl_loadStep_no_set t _ h

/-- C6: for every sign-in/sign-up attempt, the in-flight flag has settled to
false after the trace, on the successful path, on the path where the
authentication call throws, and on the path where a post-auth collaborator
throws; in the throwing cases the error is still rethrown to the caller. -/
theorem signIn_loading_resets (env : AuthEnv) :
    finalLoading (signInTrace env) = false ∧
    (∀ e, env.authResult = Except.error e →
      Event.throwErr e ∈ signInTrace env) ∧
    (∀ e r, env.authResult = Except.ok r → r.success = true →
      (handlePostSignIn env).2 = some e →
      Event.throwErr e ∈ signInTrace env) := by
  refine ⟨?_, ?_, ?_⟩
  · unfold signInTrace
    cases hA : env.authResult with
    | error e =>
      exact finalLoading_concat [Event.setLoading true, Event.callAuth]
        [Event.throwErr e] (by intro v hv; simp at hv)
    | ok r =>
      by_cases hs : r.success
      · simp only [hs, if_true]
        cases hE : (handlePostSignIn env).2 with
        | some e =>
          exact finalLoading_concat
            (Event.setLoading true :: Event.callAuth :: (handlePostSignIn env).1)
            [Event.throwErr e] (by intro v hv; simp at hv)
        | none =>
          exact finalLoading_concat
            (Event.setLoading true :: Event.callAuth :: (handlePostSignIn env).1)
            [Event.authReturn r] (by intro v hv; simp at hv)
      · simp only [hs, if_false]
        exact finalLoading_concat [Event.setLoading true, Event.callAuth]
          [Event.authReturn r] (by intro v hv; simp at hv)
  · intro e hA
    simp [signInTrace, hA]
  · intro e r hA hs hE
    simp [signInTrace, hA, hs, hE]

/-- Witness for C6 at a concrete input: an attempt whose authentication call
throws "Network error" still settles with the flag false, and the error is
rethrown. -/
theorem signIn_loading_resets_witness :
    finalLoading (signInTrace envAuthThrows) = false ∧
    Event.throwErr "Network error" ∈ signInTrace envAuthThrows :=
  ⟨(signIn_loading_resets envAuthThrows).1,
   (signIn_loading_resets envAuthThrows).2.1 "Network error" rfl⟩

/-- C3: for every attempt whose authentication call reports failure, the
resolver performs none of its side effects: no anonymous-work read, no
project listing, no project creation, and no navigation appears in the
trace. -/
theorem signIn_failure_no_side_effects (env : AuthEnv) (r : AuthResult)
    (h : env.authResult = Except.ok r) (hs : r.success = false) :
    Event.getAnonWork ∉ signInTrace env ∧
    Event.listProjects ∉ signInTrace env ∧
    (∀ s, Event.callCreate s ∉ signInTrace env) ∧
    (∀ p, Event.navigate p ∉ signInTrace env) := by
  refine ⟨?_, ?_, ?_, ?_⟩ <;> simp [signInTrace, h, hs]

/-- Witness for C3 at a concrete input: a failed credential check triggers
neither collaborator calls nor navigation. -/
theorem signIn_failure_no_side_effects_witness :
    Event.getAnonWork ∉ signInTrace envSignInFails ∧
    Event.listProjects ∉ signInTrace envSignInFails ∧
    Event.callCreate { name := "New Design #7", messages := [], data := [] } ∉
      signInTrace envSignInFails ∧
    Event.navigate "/p1" ∉ signInTrace envSignInFails := by
  obtain ⟨h1, h2, h3, h4⟩ := signIn_failure_no_side_effects envSignInFails
    { success := false, error := some "Invalid credentials" } rfl rfl
  exact ⟨h1, h2, h3 _, h4 _⟩

/-- C4: for every successful authentication with no anonymous work and a
non-empty project listing in any order, the resolver navigates to the
project selected by maximum `updatedAt` and never calls the project-creation
collaborator. -/
theorem signIn_existing_projects_most_recent (env : AuthEnv)
    (r : AuthResult) (ps : List Project)
    (h : env.authResult = Except.ok r) (hs : r.success = true)
    (ha : env.anonWork = Except.ok none)
    (hp : env.projects = Except.ok ps) (hne : ps ≠ []) :
    ∃ b, mostRecent ps = some b ∧ b ∈ ps ∧
      (∀ q ∈ ps, q.updatedAt ≤ b.updatedAt) ∧
      Event.navigate ("/" ++ b.id) ∈ signInTrace env ∧
      ∀ s, Event.callCreate s ∉ signInTrace env := by
  obtain ⟨p, ps2, rfl⟩ := List.exists_cons_of_ne_nil hne
  obtain ⟨b, hm, hmem, hmax⟩ := mostRecent_spec p ps2
  refine ⟨b, hm, hmem, hmax, ?_, ?_⟩
  · simp [signInTrace, h, hs, handlePostSignIn, projectsPhase, ha, hp, hm]
  · intro s
    simp [signInTrace, h, hs, handlePostSignIn, projectsPhase, ha, hp, hm]

/-- Witness for C4 at a concrete input: with two projects listed and the more
recently updated one second, the resolver navigates to that one. -/
theorem signIn_existing_projects_most_recent_witness :
    Event.navigate "/project-1" ∈ signInTrace envExistingProjects := by
  obtain ⟨b, hm, _, _, hnav, _⟩ := signIn_existing_projects_most_recent
    envExistingProjects { success := true }
    [{ id := "project-2", updatedAt := 1 }, { id := "project-1", updatedAt := 2 }]
    rfl rfl rfl rfl (by decide)
  have heval : mostRecent [{ id := "project-2", updatedAt := 1 },
      { id := "project-1", updatedAt := 2 }] =
      some { id := "project-1", updatedAt := 2 } := by decide
  have hb : b = { id := "project-1", updatedAt := 2 } :=
    Option.some.inj (hm.symm.trans heval)
  rw [hb] at hnav
  simpa using hnav

/-- C5: for every successful authentication, an anonymous-work record with an
empty message sequence produces exactly the same trace as an absent
anonymous-work record, and both fall through to the project-listing branch. -/
theorem anon_empty_messages_eq_absent (env : AuthEnv)
    (fsd : List (String × String)) (r : AuthResult)
    (h : env.authResult = Except.ok r) (hs : r.success = true) :
    signInTrace
        { env with
          anonWork := Except.ok (some { messages := [], fileSystemData := fsd }) } =
      signInTrace { env with anonWork := Except.ok none } ∧
    Event.listProjects ∈
      signInTrace
        { env with
          anonWork := Except.ok (some { messages := [], fileSystemData := fsd }) } := by
  obtain ⟨ar, aw, pr, cr, ts, rn⟩ := env
  dsimp only at h
  subst h
  rcases pr with e | ps
  · constructor <;> simp [signInTrace, handlePostSignIn, projectsPhase, hs]
  · rcases hm : mostRecent ps with _ | b
    · rcases cr with e2 | proj <;> constructor <;>
        simp [signInTrace, handlePostSignIn, projectsPhase, hs, hm]
    · constructor <;>
        simp [signInTrace, handlePostSignIn, projectsPhase, hs, hm]

/-- Witness for C5 at a concrete input: with one existing project, the
empty-messages record and the absent record yield the same trace, which
contains the project-listing call. -/
theorem anon_empty_messages_eq_absent_witness :
    signInTrace
        { envOneProject with
          anonWork := Except.ok (some { messages := [], fileSystemData := [("/", "x")] }) } =
      signInTrace { envOneProject with anonWork := Except.ok none } ∧
    Event.listProjects ∈
      signInTrace
        { envOneProject with
          anonWork := Except.ok (some { messages := [], fileSystemData := [("/", "x")] }) } :=
  anon_empty_messages_eq_absent envOneProject [("/", "x")]
    { success := true } rfl rfl

end UIGen
